import Mathlib

/-
Verification development for the FantasyHub league-sync core.

The Python source is shallowly embedded: pure parsing helpers become Lean
functions over strings and an XML-tree type, the database-backed sync and
entitlement code becomes explicit state passing, and fallible code returns
Option.  Machine integers are modelled as Int (Python ints are unbounded).
-/

/-! ### Python string primitives (models of str methods used by the source) -/

/-- Model of Python `str.isdigit()` restricted to ASCII digits (the source
only ever feeds it franchise-id strings). -/
def pyIsDigit (s : String) : Bool :=
  s ≠ "" && s.data.all Char.isDigit

/-- Model of Python `str.zfill(w)` on sign-free strings (the source calls it
only on all-digit strings, where no sign handling is involved). -/
def zfill (s : String) (w : Nat) : String :=
  if s.length < w then String.mk (List.replicate (w - s.length) '0') ++ s else s

/-- Model of Python `str.strip()` (ASCII whitespace; the source never strips
non-ASCII whitespace). -/
def pyStrip (s : String) : String :=
  String.mk (((s.data.dropWhile Char.isWhitespace).reverse.dropWhile
    Char.isWhitespace).reverse)

/-- `_fid` from services/mfl_parsers.py and services/mfl_sync.py: normalize a
franchise id to 4-char zero-padded form when purely digits, else pass through. -/
def fid (x : String) : String :=
  let s := pyStrip x
  if pyIsDigit s then zfill s 4 else s

/-- Digit-list accumulator for the int models. -/
def digitsNat : List Char → Nat → Option Nat
  | [], acc => some acc
  | c :: cs, acc => if c.isDigit then digitsNat cs (acc * 10 + (c.toNat - 48)) else none

/-- Model of Python `int(str)`: optional surrounding whitespace, optional
sign, at least one digit.  (Underscore digit grouping and non-ASCII digits
are not modelled; no call site can receive them.) -/
def pyInt? (s : String) : Option Int :=
  match (pyStrip s).data with
  | [] => none
  | '+' :: rest => if rest.isEmpty then none else (digitsNat rest 0).map Int.ofNat
  | '-' :: rest => if rest.isEmpty then none else (digitsNat rest 0).map (fun n => -(Int.ofNat n))
  | l =>
    if (l.headD ' ').isDigit then (digitsNat l 0).map Int.ofNat else none

/-- Split a char list into its leading run of digits and the remainder. -/
def splitDigits : List Char → (List Char × List Char)
  | [] => ([], [])
  | c :: cs =>
    if c.isDigit then
      let (ds, rest) := splitDigits cs
      (c :: ds, rest)
    else ([], c :: cs)

/-- Integer part of a Python decimal float literal `digits[.digits]` or
`.digits` (exponent/inf/nan forms are not modelled; the source's
`_safe_int` only meets plain decimal attribute strings). -/
def floatCore : List Char → Option Nat
  | l =>
    let p := splitDigits l
    match p.2 with
    | [] => if p.1.isEmpty then none else digitsNat p.1 0
    | '.' :: frac =>
      if p.1.isEmpty && frac.isEmpty then none
      else if frac.all Char.isDigit then
        if p.1.isEmpty then some 0 else digitsNat p.1 0
      else none
    | _ => none

/-- Model of Python `int(float(str))`: truncation toward zero of a plain
decimal literal. -/
def pyFloatTrunc? (s : String) : Option Int :=
  match (pyStrip s).data with
  | [] => none
  | '+' :: rest => (floatCore rest).map Int.ofNat
  | '-' :: rest => (floatCore rest).map (fun n => -(Int.ofNat n))
  | l => (floatCore l).map Int.ofNat

/-- `_safe_int` from services/mfl_parsers.py: `int(x)`, else `int(float(x))`,
else the default. -/
def safeInt (s : String) (d : Int) : Int :=
  match pyInt? s with
  | some v => v
  | none => (pyFloatTrunc? s).getD d

/-- Does `s` start with the pattern `p`? (pattern first, subject second). -/
def charsLead : List Char → List Char → Bool
  | [], _ => true
  | _ :: _, [] => false
  | p :: ps, c :: cs => p == c && charsLead ps cs

/-- Does the pattern occur anywhere in the subject? -/
def charsHave (pat : List Char) : List Char → Bool
  | [] => charsLead pat []
  | c :: cs => charsLead pat (c :: cs) || charsHave pat cs

/-- Model of Python `pat in s` on strings. -/
def strHas (s pat : String) : Bool :=
  charsHave pat.data s.data

/-- Splitting worker with a step-count bound (each step consumes at least
one character, so the initial length is always enough fuel). -/
def splitCharsAux (sep : List Char) : Nat → List Char → List Char → List String
  | _, [], acc => [String.mk acc.reverse]
  | 0, l, acc => [String.mk (acc.reverse ++ l)]
  | fuel + 1, c :: cs, acc =>
    if charsLead sep (c :: cs) then
      String.mk acc.reverse :: splitCharsAux sep fuel (cs.drop (sep.length - 1)) []
    else splitCharsAux sep fuel cs (c :: acc)

/-- Model of Python `str.split(sep)` for a nonempty separator (also the
behaviour of `str.splitOn` used by the source for `"_"` and `","`). -/
def pySplit (s sep : String) : List String :=
  splitCharsAux sep.data s.data.length s.data []

/-- Model of Python `str.lower()` on ASCII payload text. -/
def lowerStr (s : String) : String :=
  String.mk (s.data.map Char.toLower)

/-- Model of Python `str.upper()` on ASCII payload text. -/
def upperStr (s : String) : String :=
  String.mk (s.data.map Char.toUpper)

/-- Model of Python `sep.join(l)`. -/
def joinSep (sep : String) : List String → String
  | [] => ""
  | [x] => x
  | x :: xs => x ++ sep ++ joinSep sep xs

/-- Code-point lexicographic order, as Python compares strings. -/
def charsLt : List Char → List Char → Bool
  | [], [] => false
  | [], _ :: _ => true
  | _ :: _, [] => false
  | a :: as, b :: bs =>
    if a.toNat < b.toNat then true
    else if b.toNat < a.toNat then false
    else charsLt as bs

def strLe (a b : String) : Bool :=
  !(charsLt b.data a.data)

/-! ### XML model (for ElementTree-parsed payloads)

An element carries its tag, attribute list, leading text and children.
`ET.fromstring` itself is third-party; payloads enter the embedding already
in tree form, and `renderList` recovers the byte-level serialization the
fetch layer does raw substring checks on. -/

mutual
inductive XNode : Type where
  | elem (tag : String) (attrs : List (String × String)) (text : String)
      (children : XForest)
inductive XForest : Type where
  | nil
  | cons (x : XNode) (rest : XForest)
end

def XForest.toList : XForest → List XNode
  | .nil => []
  | .cons x rest => x :: rest.toList

def XForest.ofList : List XNode → XForest
  | [] => .nil
  | x :: xs => .cons x (XForest.ofList xs)

/-- Convenience constructor taking the children as a plain list. -/
def xelem (tag : String) (attrs : List (String × String)) (text : String)
    (children : List XNode) : XNode :=
  .elem tag attrs text (XForest.ofList children)

def XNode.tag : XNode → String
  | .elem t _ _ _ => t

def XNode.attrs : XNode → List (String × String)
  | .elem _ a _ _ => a

def XNode.text : XNode → String
  | .elem _ _ s _ => s

def XNode.children : XNode → List XNode
  | .elem _ _ _ c => c.toList

/-- First attribute with the given name, as `Element.get`. -/
def XNode.attr? (x : XNode) (name : String) : Option String :=
  match x.attrs.find? (fun kv => kv.1 = name) with
  | some kv => some kv.2
  | none => none

/-- `Element.get(name) or ""`. -/
def getAttr (x : XNode) (name : String) : String :=
  (x.attr? name).getD ""

/-- Attribute access under Python truthiness: absent and empty both vanish,
so `a.get(x) or a.get(y)` chains become `attrT a x <|> attrT a y`. -/
def attrT (x : XNode) (name : String) : Option String :=
  match x.attr? name with
  | some s => if s = "" then none else some s
  | none => none

mutual
/-- All descendants of a node's subtree, document order (each node, then
its own subtree, then its siblings). -/
def descN : XNode → List XNode
  | .elem _ _ _ cs => descF cs
def descF : XForest → List XNode
  | .nil => []
  | .cons (.elem t a s cs) rest =>
    .elem t a s cs :: (descF cs ++ descF rest)
end

/-- `x.findall(".//tag")`: descendants of `x` with the given tag. -/
def findallDesc (x : XNode) (t : String) : List XNode :=
  (descN x).filter (fun n => n.tag = t)

/-- `x.find(".//tag")`. -/
def findDesc? (x : XNode) (t : String) : Option XNode :=
  (findallDesc x t).head?

/-- `x.findall("tag")` / `x.findall("./tag")`: direct children. -/
def childrenTag (x : XNode) (t : String) : List XNode :=
  x.children.filter (fun n => n.tag = t)

/-- `x.find("tag")` / `x.find("./tag")`. -/
def findChild? (x : XNode) (t : String) : Option XNode :=
  (childrenTag x t).head?

/-- `x.findall(".//t1/t2")`: `t2` children of `t1` descendants. -/
def findDescPath (x : XNode) (t1 t2 : String) : List XNode :=
  (findallDesc x t1).foldr (fun n acc => childrenTag n t2 ++ acc) []

/-- Python `or` over ElementTree elements: an element with no children is
falsy (`Element.__bool__` is `len() != 0`). -/
def etOr (a b : Option XNode) : Option XNode :=
  match a with
  | some x => if x.children.isEmpty then b else some x
  | none => b

def renderAttrs : List (String × String) → String
  | [] => ""
  | kv :: rest => " " ++ kv.1 ++ "=\"" ++ kv.2 ++ "\"" ++ renderAttrs rest

mutual
/-- Serialization back to the raw XML text the transport layer sees
(attribute order as listed, no self-closing shorthand). -/
def renderN : XNode → String
  | .elem t a txt cs =>
    "<" ++ t ++ renderAttrs a ++ ">" ++ txt ++ renderF cs ++ "</" ++ t ++ ">"
def renderF : XForest → String
  | .nil => ""
  | .cons x rest => renderN x ++ renderF rest
end

def renderX (x : XNode) : String :=
  renderN x

/-! ### Parser dataclasses (services/mfl_parsers.py) -/

/-- `FranchiseAssets`: one franchise's rostered players and future picks,
a pick being `(season, round, original_team)`. -/
structure FranchiseAssets where
  franchise_id : String
  player_ids : List Int
  future_picks : List (Int × Int × String)
deriving DecidableEq, Repr

/-! ### Pick-token decoding -/

/-- `_parse_pick_code` from services/mfl_sync.py:
`FP_<orig>_<season>_<round>` -> `(season, round, original_team)`; tokens with
fewer than 4 underscore segments, or non-integer season/round, yield none. -/
def parsePickCode (code : String) : Option (Int × Int × String) :=
  let parts := pySplit (pyStrip code) "_"
  if 4 ≤ parts.length then
    match pyInt? (parts.getD 2 ""), pyInt? (parts.getD 3 "") with
    | some season, some rnd => some (season, rnd, fid (parts.getD 1 ""))
    | _, _ => none
  else none

/-! ### parse_assets (primary assets payload) -/

/-- Player ids of one `<franchise>` node in the primary assets shape:
`<players><player id=".."/></players>`, non-integer ids skipped. -/
def assetsPlayerIds (fr : XNode) : List Int :=
  match findChild? fr "players" with
  | none => []
  | some players_el =>
    (childrenTag players_el "player").filterMap (fun pe =>
      match pe.attr? "id" with
      | none => none
      | some pid => if pid = "" then none else pyInt? pid)

/-- Future picks of one `<franchise>` node in the primary assets shape:
`<futureYearDraftPicks><draftPick pick="FP_.."/>`, keeping tokens with at
least 4 underscore segments and nonzero season/round. -/
def assetsPicks (fr : XNode) : List (Int × Int × String) :=
  match findChild? fr "futureYearDraftPicks" with
  | none => []
  | some picks_el =>
    (childrenTag picks_el "draftPick").filterMap (fun de =>
      let pick_str := getAttr de "pick"
      let parts := pySplit pick_str "_"
      if 4 ≤ parts.length then
        let orig := fid (parts.getD 1 "")
        let season := safeInt (parts.getD 2 "") 0
        let rnd := safeInt (parts.getD 3 "") 0
        if season ≠ 0 && rnd ≠ 0 then some (season, rnd, orig) else none
      else none)

/-- `parse_assets` from services/mfl_parsers.py: every descendant
`<franchise>` with a nonempty id, with its players and picks. -/
def parse_assets (root : XNode) : List FranchiseAssets :=
  (findallDesc root "franchise").filterMap (fun fr =>
    match fr.attr? "id" with
    | none => none
    | some rawFid =>
      if rawFid = "" then none
      else some ⟨fid rawFid, assetsPlayerIds fr, assetsPicks fr⟩)

/-! ### Fallback parsers (rosters + futureDraftPicks exports) -/

/-- `parse_future_picks_fallback`: franchise id -> pick list, insertion
ordered as a Python dict (here an association list; a repeated franchise id
overwrites its value in place). -/
def dictInsert {α : Type} (m : List (String × α)) (k : String) (v : α) :
    List (String × α) :=
  match m with
  | [] => [(k, v)]
  | kv :: rest => if kv.1 = k then (k, v) :: rest else kv :: dictInsert rest k v

def lookupA {α : Type} (m : List (String × α)) (k : String) : Option α :=
  match m with
  | [] => none
  | kv :: rest => if kv.1 = k then some kv.2 else lookupA rest k

/-- Picks of one `<franchise>` in the futureDraftPicks fallback feed. -/
def fallbackPicksOf (fr : XNode) : List (Int × Int × String) :=
  (findallDesc fr "futureDraftPick").filterMap (fun pe =>
    let season := safeInt (getAttr pe "year") 0
    let rnd := safeInt (getAttr pe "round") 0
    let orig := fid ((attrT pe "originalPickFor" <|> attrT pe "originalpickfor"
      <|> attrT pe "original_pick_for").getD "")
    if season ≠ 0 && rnd ≠ 0 && orig ≠ "" then some (season, rnd, orig) else none)

def parse_future_picks_fallback (picks_xml : Option XNode) :
    List (String × List (Int × Int × String)) :=
  match picks_xml with
  | none => []
  | some root =>
    (findallDesc root "franchise").foldl (fun result fr =>
      let f := fid (getAttr fr "id")
      if f = "" then result else dictInsert result f (fallbackPicksOf fr)) []

/-- Player ids of one `<franchise>` in the rosters fallback feed (players at
any depth). -/
def rosterPlayerIds (fr : XNode) : List Int :=
  (findallDesc fr "player").filterMap (fun pe =>
    match pe.attr? "id" with
    | none => none
    | some pid => if pid = "" then none else pyInt? pid)

/-- The normalized franchise id of a feed node, `none` when missing/empty. -/
def nodeFid? (fr : XNode) : Option String :=
  let f := fid (getAttr fr "id")
  if f = "" then none else some f

/-- One step of the rosters pass of `parse_rosters_fallback`. -/
def rosterStep (assets : List (String × FranchiseAssets)) (fr : XNode) :
    List (String × FranchiseAssets) :=
  let f := fid (getAttr fr "id")
  if f = "" then assets
  else dictInsert assets f ⟨f, rosterPlayerIds fr, []⟩

/-- First pass of `parse_rosters_fallback`: the assets dict built from the
rosters feed, every franchise entered with an empty pick list. -/
def rosterPass (root : XNode) : List (String × FranchiseAssets) :=
  (findallDesc root "franchise").foldl rosterStep []

/-- Normalization applied when attaching fallback picks (season/round are
already ints, so `_safe_int` is the identity on them). -/
def normalizePicks (picks : List (Int × Int × String)) : List (Int × Int × String) :=
  picks.filterMap (fun p =>
    let orig_s := fid p.2.2
    if p.1 ≠ 0 && p.2.1 ≠ 0 && orig_s ≠ "" then some (p.1, p.2.1, orig_s) else none)

/-- One step of the picks pass of `parse_rosters_fallback`. -/
def pickStep (assets : List (String × FranchiseAssets))
    (kv : String × List (Int × Int × String)) : List (String × FranchiseAssets) :=
  match lookupA assets kv.1 with
  | some fa => dictInsert assets kv.1 { fa with future_picks := normalizePicks kv.2 }
  | none => dictInsert assets kv.1 ⟨kv.1, [], normalizePicks kv.2⟩

/-- Second pass of `parse_rosters_fallback`: attach picks, creating entries
for franchises that only appear in the picks feed. -/
def attachPicks (assets : List (String × FranchiseAssets))
    (picks_by_fid : List (String × List (Int × Int × String))) :
    List (String × FranchiseAssets) :=
  picks_by_fid.foldl pickStep assets

/-- Python `sorted` on strings (only membership matters to the claims). -/
def sortStrings (l : List String) : List String :=
  List.insertionSort (fun a b => strLe a b = true) l

/-- `parse_rosters_fallback` from services/mfl_parsers.py. -/
def parse_rosters_fallback (rosters_xml : XNode) (picks_xml : Option XNode) :
    List FranchiseAssets :=
  let assets := attachPicks (rosterPass rosters_xml) (parse_future_picks_fallback picks_xml)
  (sortStrings (assets.map (fun kv => kv.1))).filterMap (fun k => lookupA assets k)

/-! ### Starter-requirement string (_extract_lineup_string) -/

/-- First of the attribute names whose value is nonempty and parses as an
int (a present-but-unparsable value falls through to the next name). -/
def startersTotal : Option XNode → List String → Option Int
  | none, _ => none
  | some _, [] => none
  | some st, a :: rest =>
    match attrT st a with
    | some v =>
      match pyInt? v with
      | some n => some n
      | none => startersTotal (some st) rest
    | none => startersTotal (some st) rest

/-- One structured `<position>` entry: name plus the min/max/limit value
choice, or none when the name attribute is empty. -/
def positionEntry (pos : XNode) : Option String :=
  let pname := pyStrip (getAttr pos "name")
  if pname = "" then none
  else
    let limit_attr := pyStrip (getAttr pos "limit")
    let minv := pyStrip ((attrT pos "min" <|> attrT pos "minStarters").getD "")
    let maxv := pyStrip (getAttr pos "max")
    let val :=
      if minv ≠ "" && maxv ≠ "" && minv ≠ maxv then minv ++ "-" ++ maxv
      else if limit_attr ≠ "" then limit_attr
      else if minv ≠ "" then minv
      else if maxv ≠ "" then maxv
      else "1"
    some (pname ++ ":" ++ val)

/-- Insertion-ordered occurrence counts (the fallback's Python dict). -/
def bumpCount : List (String × Int) → String → List (String × Int)
  | [], n => [(n, 1)]
  | kv :: rest, n =>
    if kv.1 = n then (kv.1, kv.2 + 1) :: rest else kv :: bumpCount rest n

def countsFold (names : List String) : List (String × Int) :=
  names.foldl bumpCount []

/-- The structured entries: one per `.//starters/position` element with a
nonempty name. -/
def structuredEntries (root : XNode) : List String :=
  (findDescPath root "starters" "position").filterMap positionEntry

/-- The stripped, nonempty flat `<position>` text nodes under the starters
element. -/
def fallbackNames (st : XNode) : List String :=
  ((findallDesc st "position").map (fun el => pyStrip el.text)).filter
    (fun n => n ≠ "")

/-- Rendering of the fallback's insertion-ordered counts. -/
def countsRender (names : List String) : String :=
  joinSep "," ((countsFold names).map (fun kv => kv.1 ++ ":" ++ toString kv.2))

/-- The flat-text fallback of `_extract_lineup_string` (runs only when the
structured pass produced no text and `<starters>` was found). -/
def lineupFallback : Option XNode → Option String
  | none => none
  | some st =>
    if (fallbackNames st).isEmpty then none
    else some (countsRender (fallbackNames st))

/-- The final step of `_extract_lineup_string`: prefix `"<total>:"` when
both the text and the total count are truthy. -/
def lineupFinal : Option String → Option Int → Option String
  | some t, some n =>
    if t ≠ "" && n ≠ 0 then some (toString n ++ ":" ++ t) else some t
  | t, _ => t

/-- `_extract_lineup_string` from services/mfl_parsers.py. -/
def extractLineupString (root : XNode) : Option String :=
  let starters_el := findDesc? root "starters"
  let total_count := startersTotal starters_el
    ["count", "total", "lineupCount", "numStarters"]
  let positions := structuredEntries root
  let text :=
    if positions.isEmpty then none else some (joinSep "," positions)
  let text :=
    match text with
    | none => lineupFallback starters_el
    | t => t
  lineupFinal text total_count

/-! ### Pending trades (parse_pending_trades) -/

/-- One side of a pending trade.  The blind-bid amount is kept as the source
string that `float()` accepted (no claim consults the numeric value). -/
structure TradeSide where
  franchise_id : String
  player_ids : List Int
  future_picks : List (Int × Int × String)
  faab : Option String
deriving DecidableEq, Repr

structure PendingTrade where
  trade_id : String
  franchises : List String
  sides : List TradeSide
  created_ts : Option String
  expires_ts : Option String
  status : String
  comments : List (String × String × String)
  proposed_by : Option String
  offered_to : Option String
deriving DecidableEq, Repr

/-- Statuses dropped by `parse_pending_trades` (open trades only). -/
def closedStatuses : List String :=
  ["completed", "accepted", "processed", "rejected", "declined", "cancelled", "canceled"]

/-- Python `a or b or ... or dflt` over elements with a guaranteed element
default. -/
def etOrE (a : Option XNode) (dflt : XNode) : XNode :=
  match a with
  | some x => if x.children.isEmpty then dflt else x
  | none => dflt

/-- `_parse_asset_tokens`: split a CSV like `15261,FP_0010_2026_2,` into
player ids and picks. -/
def parseAssetTokens (csv : String) : List Int × List (Int × Int × String) :=
  (pySplit csv ",").foldl (fun acc tok0 =>
    let tok := pyStrip tok0
    if tok = "" then acc
    else if charsLead "FP_".data (upperStr tok).data then
      let parts := pySplit tok "_"
      if 4 ≤ parts.length then
        let orig := fid (parts.getD 1 "")
        let season := safeInt (parts.getD 2 "") 0
        let rnd := safeInt (parts.getD 3 "") 0
        if season ≠ 0 && rnd ≠ 0 && orig ≠ "" then
          (acc.1, acc.2 ++ [(season, rnd, orig)])
        else acc
      else acc
    else
      match pyInt? tok with
      | some v => (acc.1 ++ [v], acc.2)
      | none => acc) ([], [])

/-- Player ids from a list of `<player>` nodes (shapes A/B). -/
def sidePlayersFrom (nodes : List XNode) : List Int :=
  nodes.filterMap (fun pe =>
    match pe.attr? "id" with
    | none => none
    | some pid => if pid = "" then none else pyInt? pid)

/-- Picks from draftPick-style nodes, with the `pick` token fallback when
the year/round/originalPickFor attributes are incomplete. -/
def sidePicksFrom (nodes : List XNode) : List (Int × Int × String) :=
  nodes.filterMap (fun de =>
    let season0 := safeInt (getAttr de "year") 0
    let rnd0 := safeInt (getAttr de "round") 0
    let orig0 := fid ((attrT de "originalPickFor" <|> attrT de "originalpickfor"
      <|> attrT de "original_pick_for").getD "")
    let trip :=
      if season0 ≠ 0 && rnd0 ≠ 0 && orig0 ≠ "" then (season0, rnd0, orig0)
      else
        match attrT de "pick" with
        | some pick_token =>
          let parts := pySplit pick_token "_"
          if 4 ≤ parts.length then
            (safeInt (parts.getD 2 "") 0, safeInt (parts.getD 3 "") 0,
              fid (parts.getD 1 ""))
          else (season0, rnd0, orig0)
        | none => (season0, rnd0, orig0)
    if trip.1 ≠ 0 && trip.2.1 ≠ 0 && trip.2.2 ≠ "" then some trip else none)

/-- Blind-bid dollars: `bb.get("amount") or (bb.text or "").strip()`, kept
when `float()` accepts it. -/
def faabFrom (bb : Option XNode) : Option String :=
  match bb with
  | none => none
  | some b =>
    let amt := (attrT b "amount").getD (pyStrip b.text)
    if (pyFloatTrunc? amt).isSome then some amt else none

/-- Shape A sides: `<offer><franchise id=..>...</franchise></offer>`. -/
def shapeASides (offer : XNode) : List TradeSide :=
  (childrenTag offer "franchise").filterMap (fun side =>
    let f := fid (getAttr side "id")
    if f = "" then none
    else
      some ⟨f,
        sidePlayersFrom (findDescPath side "players" "player"),
        sidePicksFrom (findDescPath side "draftPicks" "draftPick"
          ++ findallDesc side "futureDraftPick"),
        faabFrom (findDesc? side "blindBidDollars")⟩)

/-- Shape B sides: `<franchise><willGive>...</willGive></franchise>`; a side
is kept only when it carries players, picks or a blind bid. -/
def shapeBSides (tr : XNode) : List TradeSide :=
  (childrenTag tr "franchise").filterMap (fun fr_side =>
    let f := fid (getAttr fr_side "id")
    if f = "" then none
    else
      let give := etOrE (etOr (etOr (etOr (findChild? fr_side "willGive")
        (findChild? fr_side "give")) (findChild? fr_side "giving"))
        (findChild? fr_side "offer")) fr_side
      let player_ids := sidePlayersFrom (findDescPath give "players" "player"
        ++ childrenTag give "player")
      let picks := sidePicksFrom (findDescPath give "draftPicks" "draftPick"
        ++ findallDesc give "futureDraftPick" ++ childrenTag give "draftPick")
      let faab := faabFrom (etOr (findDesc? give "blindBidDollars")
        (findDesc? fr_side "blindBidDollars"))
      if player_ids.isEmpty && picks.isEmpty && faab.isNone then none
      else some ⟨f, player_ids, picks, faab⟩)

def dedupStr (l : List String) : List String :=
  l.foldl (fun acc s => if s ∈ acc then acc else acc ++ [s]) []

/-- Everything `parse_pending_trades` builds for one non-closed trade node
(the status argument is the already-lowercased, defaulted attribute). -/
def parseTradeNode (tr : XNode) (status : String) : PendingTrade :=
  let trade_id := (attrT tr "id" <|> attrT tr "trade_id").getD ""
  let created_ts := attrT tr "timestamp" <|> attrT tr "date" <|> attrT tr "created"
  let expires_ts := attrT tr "willExpire" <|> attrT tr "expires" <|> attrT tr "expiration"
  let proposed_by0 :=
    let f := fid ((attrT tr "proposedBy" <|> attrT tr "proposer"
      <|> attrT tr "initiatedBy" <|> attrT tr "proposingFranchise").getD "")
    if f = "" then none else some f
  let offered_to0 :=
    let f := fid ((attrT tr "offeredto" <|> attrT tr "offeredTo").getD "")
    if f = "" then none else some f
  -- top-level <franchise> ids (shape B re-adds exactly these same ids)
  let fids0 := (childrenTag tr "franchise").filterMap (fun fe =>
    let f := fid (getAttr fe "id")
    if f = "" then none else some f)
  let offer := etOr (findChild? tr "offer") (findChild? tr "offers")
  let sidesA := match offer with | some o => shapeASides o | none => []
  let fidsA := match offer with
    | some o => (childrenTag o "franchise").filterMap (fun side =>
        let f := fid (getAttr side "id")
        if f = "" then none else some f)
    | none => []
  let sidesB := if sidesA.isEmpty && offer.isNone then shapeBSides tr else []
  let sidesAB := sidesA ++ sidesB
  -- shape C (attribute-only)
  let proposer := fid ((attrT tr "offeringteam" <|> attrT tr "offeringTeam").getD "")
  let offeree := fid ((attrT tr "offeredto" <|> attrT tr "offeredTo").getD "")
  let proposed_by :=
    if sidesAB.isEmpty then
      match proposed_by0 with
      | some s => some s
      | none => if proposer ≠ "" then some proposer else none
    else proposed_by0
  let offered_to :=
    if sidesAB.isEmpty then
      match offered_to0 with
      | some s => some s
      | none => if offeree ≠ "" then some offeree else none
    else offered_to0
  let give_csv := (attrT tr "will_give_up" <|> attrT tr "willGiveUp").getD ""
  let recv_csv := (attrT tr "will_receive" <|> attrT tr "willReceive").getD ""
  let sidesC :=
    if sidesAB.isEmpty then
      match proposed_by, offered_to with
      | some pb, some ot =>
        let pgive := parseAssetTokens give_csv
        let precv := parseAssetTokens recv_csv
        [⟨pb, pgive.1, pgive.2, none⟩, ⟨ot, precv.1, precv.2, none⟩]
      | _, _ => []
    else []
  let fidsC :=
    if sidesAB.isEmpty then
      match proposed_by, offered_to with
      | some pb, some ot => [pb, ot]
      | _, _ => []
    else []
  let comments0 :=
    match findChild? tr "comments" with
    | none => []
    | some cb => (findallDesc cb "comment").map (fun ce =>
        (fid ((attrT ce "franchise" <|> attrT ce "fid").getD ""),
         (attrT ce "date" <|> attrT ce "timestamp").getD "",
         pyStrip ce.text))
  let comments := comments0 ++
    (match attrT tr "comments" with
     | some ac => [("", "", ac)]
     | none => [])
  { trade_id := trade_id
    franchises := sortStrings (dedupStr (fids0 ++ fidsA ++ fidsC))
    sides := sidesAB ++ sidesC
    created_ts := created_ts
    expires_ts := expires_ts
    status := status
    comments := comments
    proposed_by := proposed_by
    offered_to := offered_to }

def tradeNodes (root : XNode) : List XNode :=
  findallDesc root "trade" ++ findallDesc root "pendingTrade"

/-- `parse_pending_trades` from services/mfl_parsers.py: trade nodes whose
(lowercased, `"pending"`-defaulted) status is not closed. -/
def parse_pending_trades (root : XNode) : List PendingTrade :=
  (tradeNodes root).filterMap (fun tr =>
    let status := lowerStr ((attrT tr "status").getD "pending")
    if status ∈ closedStatuses then none else some (parseTradeNode tr status))

/-! ### Trade-proposal response classification (services/mfl_trade.py and
offers/routes_confirm.py) -/

/-- A response body as the classifier sees it: either its stripped text
parses as an XML element, or it does not (plain text, malformed XML, or
empty). -/
inductive MflBody : Type where
  | xml (x : XNode)
  | raw (s : String)

/-- `parse_mfl_import_response`: `(ok, message)`.  For XML bodies the raw
text used by the message fallback is the serialized tree. -/
def parse_mfl_import_response (body : MflBody) : Bool × String :=
  match body with
  | .raw s => (false, pyStrip s)
  | .xml x =>
    let stripped := pyStrip (renderX x)
    if lowerStr x.tag = "status" then
      let msg := pyStrip x.text
      (upperStr msg = "OK", if msg = "" then stripped else msg)
    else
      match findDesc? x "status" with
      | some st =>
        let msg := pyStrip st.text
        (upperStr msg = "OK", if msg = "" then stripped else msg)
      | none =>
        match findDesc? x "error" with
        | some err =>
          let msg := pyStrip err.text
          (false, if msg = "" then stripped else msg)
        | none => (false, stripped)

/-- `send_trade_proposal`'s `ok` field: HTTP status in the 2xx range. -/
def httpOk (code : Int) : Bool :=
  200 ≤ code && code < 300

/-- `perform_offers`' outcome for one offer: `status_ok = http_ok and
parsed_ok`. -/
def classifyOffer (body : MflBody) (code : Int) : Bool :=
  httpOk code && (parse_mfl_import_response body).1

/-- The status element the classifier consults: the root itself when its
tag is `status` (any case), else the first descendant `<status>`. -/
def statusText? (x : XNode) : Option String :=
  if lowerStr x.tag = "status" then some (pyStrip x.text)
  else (findDesc? x "status").map (fun e => pyStrip e.text)

/-- Spec-side success reading: an XML body whose status element reads OK
(case-insensitively). -/
def okStatusBody : MflBody → Bool
  | .xml x =>
    match statusText? x with
    | some t => upperStr t = "OK"
    | none => false
  | .raw _ => false

/-! ### Asset fetch with fallback (the `_worker` in mfl/routes.py) -/

/-- The soft auth-rejection marker test done on raw response bytes:
`bool(assets_xml and b"<error" in assets_xml and b"API requires logged in
user" in assets_xml)`. -/
def authBlocked (raw : String) : Bool :=
  raw ≠ "" && strHas raw "<error" && strHas raw "API requires logged in user"

/-- The assets response after the single API-host retry: the preferred
host's response unless it carries the auth marker. -/
def workerAssetsXml (hostA apiA : XNode) : XNode :=
  if authBlocked (renderX hostA) then apiA else hostA

/-- `use_fallbacks` / `out["fallback_used"]`: the marker is still present
after the retry. -/
def workerFallbackUsed (hostA apiA : XNode) : Bool :=
  authBlocked (renderX (workerAssetsXml hostA apiA))

/-- The franchise-asset list the worker hands to the sync phase. -/
def workerAssets (hostA apiA rostersX : XNode) (picksX : Option XNode) :
    List FranchiseAssets :=
  if workerFallbackUsed hostA apiA then parse_rosters_fallback rostersX picksX
  else parse_assets (workerAssetsXml hostA apiA)

/-- Franchise ids present in the rosters fallback feed. -/
def rosterFeedIds (root : XNode) : List String :=
  (findallDesc root "franchise").filterMap nodeFid?

/-- Franchise ids present in the futureDraftPicks fallback feed. -/
def pickFeedIds (picksX : Option XNode) : List String :=
  (parse_future_picks_fallback picksX).map (fun kv => kv.1)

/-! ### Sync engine (sync_league_assets in services/mfl_sync.py)

State of one league's slice of the database.  Roster and DraftPick rows are
keyed by the owning team, which within one league is identified by the
normalized franchise id; a roster row is `(player_id, is_starter)` and a
pick row `(season, round, pick_number, original_team)`. -/

structure SyncState where
  teams : List (String × String)
  players : List Int
  rosters : String → List (Int × Bool)
  picks : String → List (Int × Int × Option Int × String)

def setAt {α : Type} (f : String → α) (k : String) (v : α) : String → α :=
  fun g => if g = k then v else f g

/-- `_ensure_team` in the dataclass path: no name hint is available on
`FranchiseAssets`, so an existing row is untouched and a new one gets the
placeholder name. -/
def ensureTeam (s : SyncState) (f : String) : SyncState :=
  if (s.teams.find? (fun kv => kv.1 = f)).isSome then s
  else { s with teams := s.teams ++ [(f, "Franchise " ++ f)] }

/-- `_ensure_player`: create a placeholder catalog row if absent. -/
def ensurePlayer (s : SyncState) (pid : Int) : SyncState :=
  if pid ∈ s.players then s else { s with players := s.players ++ [pid] }

/-- Roster rows re-inserted for one franchise (`_iter_player_ids` on the
dataclass yields its `player_ids` unchanged; rows get `is_starter=False`). -/
def playerRows (fr : FranchiseAssets) : List (Int × Bool) :=
  fr.player_ids.map (fun pid => (pid, false))

/-- Pick rows re-inserted for one franchise: `_iter_picks` yields
`(season, round, _fid(orig))` and the insert applies `_fid` once more;
`pick_number` is always null. -/
def pickRows (fr : FranchiseAssets) : List (Int × Int × Option Int × String) :=
  fr.future_picks.map (fun p => (p.1, p.2.1, none, fid (fid p.2.2)))

/-- The delete step: clear both row families of the team, committed on its
own (`db.session.commit()` right after the two deletes). -/
def delPhase (s : SyncState) (key : String) : SyncState :=
  { s with rosters := setAt s.rosters key [], picks := setAt s.picks key [] }

/-- The re-insert step: ensure catalog rows and write the fresh snapshot,
committed at the end of the franchise's loop body. -/
def insPhase (s : SyncState) (key : String) (fr : FranchiseAssets) : SyncState :=
  let s1 := fr.player_ids.foldl ensurePlayer s
  { s1 with
    rosters := setAt s1.rosters key (playerRows fr)
    picks := setAt s1.picks key (pickRows fr) }

/-- One franchise's loop body (`if not franchise_id_raw: continue`, ensure
team, delete, re-insert). -/
def processFranchise (s : SyncState) (fr : FranchiseAssets) : SyncState :=
  if fr.franchise_id = "" then s
  else
    let key := fid fr.franchise_id
    insPhase (delPhase (ensureTeam s key) key) key fr

/-- `sync_league_assets`: full run over the parsed payload. -/
def sync_league_assets (s : SyncState) (frs : List FranchiseAssets) : SyncState :=
  frs.foldl processFranchise s

/-- The sequence of *committed* states a run produces: two commits per
processed franchise — one right after its deletes, one after its
re-inserts.  A failure between two commits leaves the database at the last
committed state. -/
def syncCommitList : SyncState → List FranchiseAssets → List SyncState
  | _, [] => []
  | s, fr :: rest =>
    if fr.franchise_id = "" then syncCommitList s rest
    else
      let key := fid fr.franchise_id
      let sA := delPhase (ensureTeam s key) key
      let sB := insPhase sA key fr
      sA :: sB :: syncCommitList sB rest

/-- Database state observed when the run dies after its first `n` commits. -/
def observedState (s0 : SyncState) (frs : List FranchiseAssets) (n : Nat) :
    SyncState :=
  ((syncCommitList s0 frs).take n).getLastD s0

/-! ### Entitlement gate (services/guards.py and services/usage_store.py) -/

/-- The entitlement fields `consume_mass_offer` reads. -/
structure Entitlements where
  plan_key : String
  mass_offer_daily_cap : Int
  free_recipients_cap : Int

/-- The usage-counter state behind the gate's callbacks: today's counter,
the bonus balance, and the current ISO week's free-send flag. -/
structure GateState where
  used_today : Int
  bonus : Int
  weekly_used : Bool
deriving DecidableEq, Repr

/-- `use_one_bonus` from services/usage_store.py: decrement but never below
zero; returns the remaining balance it stored. -/
def use_one_bonus (st : GateState) : Int × GateState :=
  let remaining := max 0 (st.bonus - 1)
  (remaining, { st with bonus := remaining })

def freeCapMsg (cap : Int) : String :=
  "Free plan limit is " ++ toString cap ++
    " recipients per mass send. Upgrade to send to all."

def weeklyMsg : String :=
  "You’ve used your weekly free mass offer. Upgrade to send more."

def noCapMsg : String :=
  "Your plan does not allow mass offers. Upgrade to enable this feature."

def dailyCapMsg (cap : Int) : String :=
  "Daily mass-offer cap reached (" ++ toString cap ++
    "). Try again tomorrow or upgrade your plan."

/-- `consume_mass_offer` from services/guards.py, with the usage-store
callbacks wired exactly as `perform_offers` wires them (in particular both
weekly-free callbacks are provided).  Returns (ok, message, new state). -/
def consume_mass_offer (ent : Entitlements) (recipients_count : Int)
    (st : GateState) : Bool × Option String × GateState :=
  let daily_cap := ent.mass_offer_daily_cap
  if ent.plan_key = "free" then
    let recipients_cap := ent.free_recipients_cap
    if recipients_count > recipients_cap then
      (false, some (freeCapMsg recipients_cap), st)
    else if st.weekly_used then (false, some weeklyMsg, st)
    else (true, none, { st with weekly_used := true })
  else
    if daily_cap ≤ 0 then
      if st.bonus > 0 then (true, none, (use_one_bonus st).2)
      else (false, some noCapMsg, st)
    else if st.used_today < daily_cap then
      (true, none, { st with used_today := st.used_today + 1 })
    else if st.bonus > 0 then (true, none, (use_one_bonus st).2)
    else (false, some (dailyCapMsg daily_cap), st)

/-! ### Characterization helpers and concrete payloads used by the theorems -/

/-- The roster rows the payload's last effective write leaves for franchise
key `g` (`none` when no franchise in the payload writes `g`). -/
def lastRosterWrite : List FranchiseAssets → String → Option (List (Int × Bool))
  | [], _ => none
  | fr :: rest, g =>
    match lastRosterWrite rest g with
    | some v => some v
    | none =>
      if fr.franchise_id ≠ "" ∧ fid fr.franchise_id = g then some (playerRows fr)
      else none

/-- Pick-row analogue of `lastRosterWrite`. -/
def lastPickWrite :
    List FranchiseAssets → String → Option (List (Int × Int × Option Int × String))
  | [], _ => none
  | fr :: rest, g =>
    match lastPickWrite rest g with
    | some v => some v
    | none =>
      if fr.franchise_id ≠ "" ∧ fid fr.franchise_id = g then some (pickRows fr)
      else none

/-- The total-prefix step of the spec reading of the lineup string. -/
def specAddTotal (total : Option Int) (t : String) : String :=
  match total with
  | some n => if n ≠ 0 then toString n ++ ":" ++ t else t
  | none => t

/-- Spec reading of the starter-requirement derivation, stated from the
amended claim's words: one `POS:value` entry per structured
`<starters>/<position>` element with a nonempty name (document order, no
de-duplication, no skipping of degenerate values), else the flat-text
count fallback; a `"<total>:"` prefix exactly when a nonzero total parses. -/
def specLineup (root : XNode) : Option String :=
  let total := startersTotal (findDesc? root "starters")
    ["count", "total", "lineupCount", "numStarters"]
  if structuredEntries root ≠ [] then
    some (specAddTotal total (joinSep "," (structuredEntries root)))
  else
    match findDesc? root "starters" with
    | none => none
    | some st =>
      if fallbackNames st = [] then none
      else some (specAddTotal total (countsRender (fallbackNames st)))

/-- An assets response with a nonempty franchise list in which every
franchise has zero players and zero picks, and no `<error>` marker. -/
def exEmptyAssets : XNode :=
  xelem "assets" [] "" [xelem "franchise" [("id", "0001")] "" []]

/-- A `<starters>` block carrying the same position name twice, each with a
degenerate `limit="0"`. -/
def exLineupDup : XNode :=
  xelem "league" [] "" [
    xelem "starters" [("count", "2")] "" [
      xelem "position" [("name", "QB"), ("limit", "0")] "" [],
      xelem "position" [("name", "QB"), ("limit", "0")] "" []]]

/-- A pending-trades payload with one open and two closed trades
(attribute-only shape C). -/
def exTrades : XNode :=
  xelem "pendingTrades" [] "" [
    xelem "pendingTrade" [("status", "pending"), ("offeringteam", "0008"),
      ("offeredto", "0001"), ("will_give_up", "123,FP_0001_2026_2,"),
      ("will_receive", "456")] "" [],
    xelem "pendingTrade" [("status", "accepted"), ("offeringteam", "0002"),
      ("offeredto", "0003")] "" [],
    xelem "pendingTrade" [("status", "cancelled"), ("offeringteam", "0004"),
      ("offeredto", "0005")] "" []]

/-- The single open trade `parse_pending_trades` keeps from `exTrades`. -/
def exTradeParsed : PendingTrade :=
  { trade_id := ""
    franchises := ["0001", "0008"]
    sides := [⟨"0008", [123], [(2026, 2, "0001")], none⟩,
              ⟨"0001", [456], [], none⟩]
    created_ts := none
    expires_ts := none
    status := "pending"
    comments := []
    proposed_by := some "0008"
    offered_to := some "0001" }

/-- Empty league slice of the database. -/
def syncInit : SyncState :=
  ⟨[], [], fun _ => [], fun _ => []⟩

/-- Payload of the last successful asset sync for franchise `0001`. -/
def frOld : FranchiseAssets := ⟨"0001", [7], [(2026, 1, "0001")]⟩

/-- The payload of the next (failing) sync of the same franchise. -/
def frNew : FranchiseAssets := ⟨"0001", [8], [(2027, 2, "0003")]⟩

/-- Snapshot written by the most recent successful asset sync. -/
def syncPrior : SyncState :=
  sync_league_assets syncInit [frOld]

/-- Paid-tier entitlements with a daily cap of 3. -/
def entPaid3 : Entitlements := ⟨"mgr5", 3, 6⟩

/-- Free-tier entitlements with the default recipient cap of 6. -/
def entFree6 : Entitlements := ⟨"free", 0, 6⟩

/-- A soft auth-rejection response from the assets export. -/
def exAuthError : XNode :=
  xelem "error" [] "API requires logged in user" []

/-- A rosters fallback feed: franchise 0001 with one player, 0002 empty. -/
def exRostersFb : XNode :=
  xelem "rosters" [] "" [
    xelem "franchise" [("id", "1")] "" [xelem "player" [("id", "101")] "" []],
    xelem "franchise" [("id", "0002")] "" []]

/-- A futureDraftPicks fallback feed naming only franchise 0003. -/
def exPicksFb : XNode :=
  xelem "futureDraftPicks" [] "" [
    xelem "franchise" [("id", "0003")] "" [
      xelem "futureDraftPick" [("year", "2026"), ("round", "1"),
        ("originalPickFor", "0003")] "" []]]

/-! ### Claim theorems -/

/-- C3, counterexample: a token with five underscore-separated segments is
not discarded — the decoder accepts it, reading season/round/original team
from segments 3, 4 and 2 and ignoring the extra segment. -/
theorem C3_counterexample :
    parsePickCode "FP_0002_2026_1_EXTRA" = some (2026, 1, "0002") ∧
    (pySplit (pyStrip "FP_0002_2026_1_EXTRA") "_").length = 5 := by
  decide

/-- C3, amended: the decoder splits on underscore and accepts a token
exactly when it has at least 4 segments with season and round (segments 3
and 4) coercible to integers — extra segments are ignored, not rejected;
any malformed token is silently discarded (`none`), never an error; an
accepted token yields the two integers plus the normalized segment 2. -/
theorem C3_pick_code_amended (tok : String) :
    (∀ s r o, parsePickCode tok = some (s, r, o) →
      4 ≤ (pySplit (pyStrip tok) "_").length ∧
      pyInt? ((pySplit (pyStrip tok) "_").getD 2 "") = some s ∧
      pyInt? ((pySplit (pyStrip tok) "_").getD 3 "") = some r ∧
      o = fid ((pySplit (pyStrip tok) "_").getD 1 "")) ∧
    ((parsePickCode tok).isSome ↔
      4 ≤ (pySplit (pyStrip tok) "_").length ∧
      (pyInt? ((pySplit (pyStrip tok) "_").getD 2 "")).isSome ∧
      (pyInt? ((pySplit (pyStrip tok) "_").getD 3 "")).isSome) := by
  simp only [parsePickCode]
  constructor
  · intro s r o h
    split at h
    · split at h
      · simp_all
      · exact absurd h (by simp)
    · exact absurd h (by simp)
  · constructor
    · intro h
      split at h
      · split at h
        · simp_all
        · exact absurd h (by simp)
      · exact absurd h (by simp)
    · rintro ⟨h4, h2, h3⟩
      rw [if_pos h4]
      obtain ⟨s, hs⟩ := Option.isSome_iff_exists.mp h2
      obtain ⟨r, hr⟩ := Option.isSome_iff_exists.mp h3
      rw [hs, hr]
      simp

/-- C3, witness: the amended theorem applied to a well-formed 4-segment
token. -/
theorem C3_pick_code_witness :
    4 ≤ (pySplit (pyStrip "FP_0001_2026_1") "_").length ∧
    pyInt? ((pySplit (pyStrip "FP_0001_2026_1") "_").getD 2 "") = some 2026 ∧
    pyInt? ((pySplit (pyStrip "FP_0001_2026_1") "_").getD 3 "") = some 1 ∧
    "0001" = fid ((pySplit (pyStrip "FP_0001_2026_1") "_").getD 1 "") :=
  (C3_pick_code_amended "FP_0001_2026_1").1 2026 1 "0001" (by decide)

/-- C10: `use_one_bonus` stores `max 0 (current - 1)`, returns exactly the
stored value, never stores a negative balance, and leaves a zero balance at
zero; the other counters are untouched. -/
theorem C10_use_one_bonus (st : GateState) :
    (use_one_bonus st).2.bonus = max 0 (st.bonus - 1) ∧
    (use_one_bonus st).1 = (use_one_bonus st).2.bonus ∧
    0 ≤ (use_one_bonus st).2.bonus ∧
    (st.bonus = 0 → (use_one_bonus st).2.bonus = 0) ∧
    (use_one_bonus st).2.used_today = st.used_today ∧
    (use_one_bonus st).2.weekly_used = st.weekly_used := by
  refine ⟨rfl, rfl, ?_, ?_, rfl, rfl⟩
  · simp [use_one_bonus]
  · intro h
    simp [use_one_bonus, h]

/-- C10, witness: decrementing an already-zero balance leaves it at zero. -/
theorem C10_use_one_bonus_witness :
    (use_one_bonus ⟨0, 0, false⟩).2.bonus = 0 :=
  (C10_use_one_bonus ⟨0, 0, false⟩).2.2.2.1 rfl

/-- C6: for a paid plan with a positive daily cap, one `consume_mass_offer`
call allows and increments today's counter while it is below the cap; at
the cap it allows and decrements the bonus balance when positive, and
otherwise denies with the daily-cap message; concretely, with daily cap 3,
3 used today and bonus 2, three successive batches yield allowed (bonus 1),
allowed (bonus 0), denied. -/
theorem C6_paid_daily_cap (ent : Entitlements) (n : Int) (st : GateState)
    (hplan : ent.plan_key ≠ "free") (hcap : 0 < ent.mass_offer_daily_cap) :
    (st.used_today < ent.mass_offer_daily_cap →
      consume_mass_offer ent n st =
        (true, none, { st with used_today := st.used_today + 1 })) ∧
    (ent.mass_offer_daily_cap ≤ st.used_today → 0 < st.bonus →
      consume_mass_offer ent n st = (true, none, { st with bonus := st.bonus - 1 })) ∧
    (ent.mass_offer_daily_cap ≤ st.used_today → st.bonus ≤ 0 →
      consume_mass_offer ent n st =
        (false, some (dailyCapMsg ent.mass_offer_daily_cap), st)) ∧
    (consume_mass_offer entPaid3 1 ⟨3, 2, false⟩ = (true, none, ⟨3, 1, false⟩) ∧
     consume_mass_offer entPaid3 1 ⟨3, 1, false⟩ = (true, none, ⟨3, 0, false⟩) ∧
     consume_mass_offer entPaid3 1 ⟨3, 0, false⟩ =
       (false, some (dailyCapMsg 3), ⟨3, 0, false⟩)) := by
  refine ⟨?_, ?_, ?_, by decide⟩
  · intro h
    have h0 : ¬ ent.mass_offer_daily_cap ≤ 0 := by omega
    simp [consume_mass_offer, hplan, h, h0]
  · intro h hb
    have h0 : ¬ ent.mass_offer_daily_cap ≤ 0 := by omega
    have h1 : ¬ st.used_today < ent.mass_offer_daily_cap := by omega
    have h2 : max 0 (st.bonus - 1) = st.bonus - 1 := by omega
    simp [consume_mass_offer, use_one_bonus, hplan, hb, h0, h1, h2]
  · intro h hb
    have h0 : ¬ ent.mass_offer_daily_cap ≤ 0 := by omega
    have h1 : ¬ st.used_today < ent.mass_offer_daily_cap := by omega
    have h2 : ¬ st.bonus > 0 := by omega
    simp [consume_mass_offer, hplan, h0, h1, h2]

/-- C6, witness: the paid-tier theorem applied to the scenario's first
batch (cap reached, bonus 2: allowed, bonus decremented to 1). -/
theorem C6_paid_daily_cap_witness :
    consume_mass_offer entPaid3 1 ⟨3, 2, false⟩ = (true, none, ⟨3, 1, false⟩) :=
  (C6_paid_daily_cap entPaid3 1 ⟨3, 2, false⟩ (by decide) (by decide)).2.1
    (by decide) (by decide)

/-- C7, counterexample: a free-tier user whose weekly allowance is already
used and who submits a batch of 7 recipients (cap 6) is denied with the
recipient-cap message, not the weekly-exhausted message — the claim's
"denied with the weekly-exhausted message regardless of recipient count"
fails for over-cap batches. -/
theorem C7_counterexample :
    (consume_mass_offer entFree6 7 ⟨0, 0, true⟩).1 = false ∧
    (consume_mass_offer entFree6 7 ⟨0, 0, true⟩).2.1 = some (freeCapMsg 6) ∧
    freeCapMsg 6 ≠ weeklyMsg := by
  decide

/-- C7, amended: a free-tier batch over the recipient cap is rejected with
the recipient-cap message (this check runs first, whatever the weekly
flag); within the cap, a used weekly allowance rejects with the
weekly-exhausted message, and otherwise the allowance is marked used and
the send allowed; concretely with cap 6 and the allowance unused, a
4-recipient batch is allowed and sets the flag, and a second in-cap batch
the same week is denied with the weekly-exhausted message. -/
theorem C7_free_tier_amended (ent : Entitlements) (n : Int) (st : GateState)
    (hplan : ent.plan_key = "free") :
    (ent.free_recipients_cap < n →
      consume_mass_offer ent n st =
        (false, some (freeCapMsg ent.free_recipients_cap), st)) ∧
    (n ≤ ent.free_recipients_cap → st.weekly_used = true →
      consume_mass_offer ent n st = (false, some weeklyMsg, st)) ∧
    (n ≤ ent.free_recipients_cap → st.weekly_used = false →
      consume_mass_offer ent n st = (true, none, { st with weekly_used := true })) ∧
    (consume_mass_offer entFree6 4 ⟨0, 0, false⟩ = (true, none, ⟨0, 0, true⟩) ∧
     consume_mass_offer entFree6 4 ⟨0, 0, true⟩ =
       (false, some weeklyMsg, ⟨0, 0, true⟩)) := by
  refine ⟨?_, ?_, ?_, by decide⟩
  · intro h
    have h1 : n > ent.free_recipients_cap := by omega
    simp [consume_mass_offer, hplan, h1]
  · intro h hw
    have h1 : ¬ n > ent.free_recipients_cap := by omega
    simp [consume_mass_offer, hplan, h1, hw]
  · intro h hw
    have h1 : ¬ n > ent.free_recipients_cap := by omega
    simp [consume_mass_offer, hplan, h1, hw]

/-- C7, witness: the amended theorem applied to the scenario's first batch
(4 recipients, allowance unused: allowed, flag set). -/
theorem C7_free_tier_witness :
    consume_mass_offer entFree6 4 ⟨0, 0, false⟩ = (true, none, ⟨0, 0, true⟩) :=
  (C7_free_tier_amended entFree6 4 ⟨0, 0, false⟩ rfl).2.2.1 (by decide) rfl

/-- C9: a trade-proposal submission is classified as a success exactly when
the body is XML whose status element (the root if tagged `status`, else the
first descendant `<status>`) reads OK case-insensitively AND the HTTP
status is 2xx; non-XML bodies, bodies with only an `<error>` element, and
non-2xx statuses all classify as failures. -/
theorem C9_response_classification (body : MflBody) (code : Int) :
    classifyOffer body code = true ↔
      (okStatusBody body = true ∧ 200 ≤ code ∧ code < 300) := by
  cases body with
  | raw s =>
    simp [classifyOffer, parse_mfl_import_response, okStatusBody, httpOk]
  | xml x =>
    simp only [classifyOffer, parse_mfl_import_response, okStatusBody, statusText?,
      httpOk, Bool.and_eq_true, decide_eq_true_eq]
    by_cases htag : lowerStr x.tag = "status"
    · simp [htag]
      tauto
    · simp only [htag, if_neg, reduceIte]
      cases hst : findDesc? x "status" with
      | some st => simp [hst]; tauto
      | none =>
        simp only [hst]
        cases herr : findDesc? x "error" with
        | some err => simp [herr]
        | none => simp [herr]

/-- C8: every trade whose status is one of completed, accepted, processed,
rejected, declined, cancelled is excluded from `parse_pending_trades`;
concretely a payload with statuses pending/accepted/cancelled yields only
the pending trade. -/
theorem C8_trade_status_filtering :
    (∀ (root : XNode) (t : PendingTrade), t ∈ parse_pending_trades root →
      t.status ∉ (["completed", "accepted", "processed", "rejected",
        "declined", "cancelled"] : List String)) ∧
    parse_pending_trades exTrades = [exTradeParsed] := by
  constructor
  · intro root t ht
    simp only [parse_pending_trades, List.mem_filterMap] at ht
    obtain ⟨tr, _, h⟩ := ht
    split at h
    · exact absurd h (by simp)
    · rename_i hc
      injection h with h
      intro hmem
      apply hc
      have hts : t.status = lowerStr ((attrT tr "status").getD "pending") := by
        rw [← h]
        rfl
      rw [hts] at hmem
      have hsub : ∀ s : String,
          s ∈ (["completed", "accepted", "processed", "rejected",
            "declined", "cancelled"] : List String) → s ∈ closedStatuses := by
        intro s hs
        simp only [closedStatuses, List.mem_cons, List.not_mem_nil, or_false] at hs ⊢
        tauto
      exact hsub _ hmem
  · decide

/-- C8, witness: the status-exclusion part applied to the open trade kept
from the concrete payload. -/
theorem C8_trade_status_witness :
    exTradeParsed.status ∉ (["completed", "accepted", "processed", "rejected",
      "declined", "cancelled"] : List String) :=
  C8_trade_status_filtering.1 exTrades exTradeParsed (by decide)

/-- Helper: appending never erases a nonempty right part. -/
theorem append_ne_empty_right (a b : String) (h : b ≠ "") : a ++ b ≠ "" := by
  intro hc
  apply h
  have hd : a.data ++ b.data = [] := congrArg String.data hc
  have : b.data = [] := (List.append_eq_nil.mp hd).2
  cases b
  simp_all

/-- Helper: appending never erases a nonempty left part. -/
theorem append_ne_empty_left (a b : String) (h : a ≠ "") : a ++ b ≠ "" := by
  intro hc
  apply h
  have hd : a.data ++ b.data = [] := congrArg String.data hc
  have : a.data = [] := (List.append_eq_nil.mp hd).1
  cases a
  simp_all

/-- Helper: a comma-join of nonempty entries is nonempty. -/
theorem joinSep_comma_ne_empty (l : List String) (hne : l ≠ [])
    (helem : ∀ x ∈ l, x ≠ "") : joinSep "," l ≠ "" := by
  match l with
  | [] => exact absurd rfl hne
  | [x] => exact helem x (by simp)
  | x :: y :: t =>
    show x ++ "," ++ joinSep "," (y :: t) ≠ ""
    exact append_ne_empty_left _ _ (append_ne_empty_right x "," (by decide))

/-- Helper: every structured lineup entry contains a colon, hence is
nonempty. -/
theorem positionEntry_ne_empty (pos : XNode) (e : String)
    (h : positionEntry pos = some e) : e ≠ "" := by
  simp only [positionEntry] at h
  split at h
  · exact absurd h (by simp)
  · injection h with h
    rw [← h]
    exact append_ne_empty_left _ _ (append_ne_empty_right _ ":" (by decide))

/-- Helper: every fallback count entry contains a colon, hence is
nonempty. -/
theorem countEntry_ne_empty (kv : String × Int) :
    kv.1 ++ ":" ++ toString kv.2 ≠ "" :=
  append_ne_empty_left _ _ (append_ne_empty_right _ ":" (by decide))

/-- Helper: bumping a count never empties the table. -/
theorem bumpCount_ne_nil (acc : List (String × Int)) (n : String)
    (h : acc ≠ []) : bumpCount acc n ≠ [] := by
  match acc with
  | [] => exact absurd rfl h
  | kv :: rest =>
    unfold bumpCount
    split <;> simp

/-- Helper: folding `bumpCount` over any list keeps the table nonempty. -/
theorem foldl_bumpCount_ne_nil (l : List String) (acc : List (String × Int))
    (h : acc ≠ []) : l.foldl bumpCount acc ≠ [] := by
  induction l generalizing acc with
  | nil => exact h
  | cons n rest ih => exact ih (bumpCount acc n) (bumpCount_ne_nil acc n h)

/-- C4, counterexample: a `<starters>` block naming `QB` twice with
`limit="0"` yields `2:QB:0,QB:0` — the position is not de-duplicated and
the degenerate `0` entries are not skipped. -/
theorem C4_counterexample :
    extractLineupString exLineupDup = some "2:QB:0,QB:0" ∧
    strHas ((extractLineupString exLineupDup).getD "") "QB:0,QB:0" = true := by
  decide

/-- Helper: the total-prefix step does nothing to absent text. -/
theorem lineupFinal_none (tc : Option Int) : lineupFinal none tc = none := by
  cases tc <;> rfl

/-- Helper: on nonempty text the final step is exactly `specAddTotal`. -/
theorem lineupFinal_some (t : String) (tc : Option Int) (ht : t ≠ "") :
    lineupFinal (some t) tc = some (specAddTotal tc t) := by
  cases tc with
  | none => rfl
  | some n =>
    by_cases hn : n = 0
    · simp [lineupFinal, specAddTotal, hn]
    · simp [lineupFinal, specAddTotal, hn, ht]

/-- Helper: the rendered fallback counts of a nonempty name list are
nonempty. -/
theorem countsRender_ne_empty (names : List String) (h : names ≠ []) :
    countsRender names ≠ "" := by
  match names with
  | nm :: nms =>
    apply joinSep_comma_ne_empty
    · have hcf : countsFold (nm :: nms) ≠ [] :=
        foldl_bumpCount_ne_nil nms (bumpCount [] nm) (by unfold bumpCount; simp)
      simpa using hcf
    · intro x hx
      obtain ⟨kv, _, hkv⟩ := List.mem_map.mp hx
      rw [← hkv]
      exact countEntry_ne_empty kv

/-- C4, amended: the structured branch emits one `POS:value` entry per
`<starters>/<position>` element with a nonempty name, in document order,
with no de-duplication by name and no skipping of `0` or `0-0` values
(value precedence: differing min-max range, then limit, then min, then max,
then 1); only when no structured entry exists does it count repeated flat
`<position>` text nodes; the `"<total>:"` prefix appears exactly when a
nonzero total parses from the `<starters>` attributes — i.e. the extractor
agrees with `specLineup` everywhere. -/
theorem C4_lineup_amended (root : XNode) :
    extractLineupString root = specLineup root := by
  simp only [extractLineupString, specLineup]
  cases hpos : structuredEntries root with
  | cons e es =>
    have hne : joinSep "," (e :: es) ≠ "" := by
      apply joinSep_comma_ne_empty _ (by simp)
      intro x hx
      have hx' : x ∈ structuredEntries root := by rw [hpos]; exact hx
      obtain ⟨pos, _, hsome⟩ := List.mem_filterMap.mp hx'
      exact positionEntry_ne_empty pos x hsome
    rw [if_pos (by simp : (e :: es) ≠ ([] : List String))]
    exact lineupFinal_some _ _ hne
  | nil =>
    simp only [List.isEmpty_nil, reduceIte, ne_eq, not_true_eq_false]
    cases hst : findDesc? root "starters" with
    | none => exact lineupFinal_none _
    | some st =>
      cases hnm : fallbackNames st with
      | nil =>
        rw [show lineupFallback (some st) = none from by simp [lineupFallback, hnm],
          lineupFinal_none]
        simp [hnm]
      | cons nm nms =>
        have hC : countsRender (nm :: nms) ≠ "" := countsRender_ne_empty _ (by simp)
        rw [show lineupFallback (some st) = some (countsRender (nm :: nms)) from by
            simp [lineupFallback, hnm],
          lineupFinal_some _ _ hC]
        simp [hnm]

/-- Helper: ensuring a team row never touches roster rows. -/
theorem ensureTeam_rosters (s : SyncState) (k : String) :
    (ensureTeam s k).rosters = s.rosters := by
  unfold ensureTeam
  split <;> rfl

/-- Helper: ensuring a team row never touches pick rows. -/
theorem ensureTeam_picks (s : SyncState) (k : String) :
    (ensureTeam s k).picks = s.picks := by
  unfold ensureTeam
  split <;> rfl

/-- Helper: creating placeholder players never touches roster rows. -/
theorem ensurePlayerFold_rosters (l : List Int) (s : SyncState) :
    (l.foldl ensurePlayer s).rosters = s.rosters := by
  induction l generalizing s with
  | nil => rfl
  | cons p rest ih =>
    rw [List.foldl_cons, ih]
    unfold ensurePlayer
    split <;> rfl

/-- Helper: creating placeholder players never touches pick rows. -/
theorem ensurePlayerFold_picks (l : List Int) (s : SyncState) :
    (l.foldl ensurePlayer s).picks = s.picks := by
  induction l generalizing s with
  | nil => rfl
  | cons p rest ih =>
    rw [List.foldl_cons, ih]
    unfold ensurePlayer
    split <;> rfl

/-- C1, counterexample: with franchise 0001 holding the snapshot
`[player 7]` from the last successful sync, a re-sync of the same franchise
that fails between the delete commit and the re-insert commit (observed
state after 1 commit) leaves the franchise with no roster and no pick rows —
not the prior snapshot. -/
theorem C1_counterexample :
    syncPrior.rosters "0001" = [(7, false)] ∧
    syncPrior.picks "0001" = [(2026, 1, none, "0001")] ∧
    (observedState syncPrior [frNew] 1).rosters "0001" = [] ∧
    (observedState syncPrior [frNew] 1).picks "0001" = [] ∧
    (observedState syncPrior [frNew] 1).rosters "0001" ≠ syncPrior.rosters "0001" := by
  decide

/-- C1, amended: the payload is parsed in full before the delete, so a
failure before the franchise's delete commit (commit 0 observed) leaves the
prior snapshot untouched; but the delete and re-insert are two separate
commits, so a failure between them (commit 1 observed) leaves the franchise
with zero roster/pick rows rather than the prior snapshot — while never
mixing old and new rows, and never touching other franchises; after the
second commit the franchise holds exactly the fresh snapshot. -/
theorem C1_failed_sync_amended (s0 : SyncState) (fr : FranchiseAssets)
    (h : fr.franchise_id ≠ "") :
    observedState s0 [fr] 0 = s0 ∧
    (observedState s0 [fr] 1).rosters (fid fr.franchise_id) = [] ∧
    (observedState s0 [fr] 1).picks (fid fr.franchise_id) = [] ∧
    (∀ g, g ≠ fid fr.franchise_id →
      (observedState s0 [fr] 1).rosters g = s0.rosters g ∧
      (observedState s0 [fr] 1).picks g = s0.picks g) ∧
    (observedState s0 [fr] 2).rosters (fid fr.franchise_id) = playerRows fr ∧
    (observedState s0 [fr] 2).picks (fid fr.franchise_id) = pickRows fr ∧
    observedState s0 [fr] 2 = sync_league_assets s0 [fr] := by
  refine ⟨rfl, ?_, ?_, ?_, ?_, ?_, ?_⟩
  · simp [observedState, syncCommitList, h, delPhase, setAt, ensureTeam_rosters]
  · simp [observedState, syncCommitList, h, delPhase, setAt, ensureTeam_picks]
  · intro g hg
    constructor
    · simp [observedState, syncCommitList, h, delPhase, setAt, ensureTeam_rosters, hg]
    · simp [observedState, syncCommitList, h, delPhase, setAt, ensureTeam_picks, hg]
  · simp [observedState, syncCommitList, h, insPhase, ensurePlayerFold_rosters, setAt]
  · simp [observedState, syncCommitList, h, insPhase, ensurePlayerFold_picks, setAt]
  · simp [observedState, syncCommitList, h, sync_league_assets, processFranchise]

/-- C1, witness: the amended theorem applied to the concrete snapshot and
re-sync payload. -/
theorem C1_failed_sync_witness :
    (observedState syncPrior [frNew] 1).rosters "0001" = [] ∧
    (observedState syncPrior [frNew] 2).rosters "0001" = playerRows frNew :=
  ⟨(C1_failed_sync_amended syncPrior frNew (by decide)).2.1,
   (C1_failed_sync_amended syncPrior frNew (by decide)).2.2.2.2.1⟩

/-- Helper: a full sync leaves franchise key `g` holding the payload's last
write for `g`, or its previous rows when no franchise of the payload maps
to `g`. -/
theorem sync_rosters_char (frs : List FranchiseAssets) :
    ∀ (s : SyncState) (g : String),
      (sync_league_assets s frs).rosters g =
        (lastRosterWrite frs g).getD (s.rosters g) := by
  induction frs with
  | nil => intro s g; rfl
  | cons fr rest ih =>
    intro s g
    show (sync_league_assets (processFranchise s fr) rest).rosters g = _
    rw [ih]
    cases hlw : lastRosterWrite rest g with
    | some v => simp [lastRosterWrite, hlw]
    | none =>
      simp only [lastRosterWrite, hlw]
      by_cases hid : fr.franchise_id = ""
      · simp [processFranchise, hid]
      · by_cases hkey : fid fr.franchise_id = g
        · simp [processFranchise, hid, insPhase, ensurePlayerFold_rosters, delPhase,
            ensureTeam_rosters, setAt, hkey]
        · have hkey' : ¬ g = fid fr.franchise_id := fun hgg => hkey hgg.symm
          simp [processFranchise, hid, insPhase, ensurePlayerFold_rosters, delPhase,
            ensureTeam_rosters, setAt, hkey, hkey']

/-- Helper: pick-row analogue of `sync_rosters_char`. -/
theorem sync_picks_char (frs : List FranchiseAssets) :
    ∀ (s : SyncState) (g : String),
      (sync_league_assets s frs).picks g =
        (lastPickWrite frs g).getD (s.picks g) := by
  induction frs with
  | nil => intro s g; rfl
  | cons fr rest ih =>
    intro s g
    show (sync_league_assets (processFranchise s fr) rest).picks g = _
    rw [ih]
    cases hlw : lastPickWrite rest g with
    | some v => simp [lastPickWrite, hlw]
    | none =>
      simp only [lastPickWrite, hlw]
      by_cases hid : fr.franchise_id = ""
      · simp [processFranchise, hid]
      · by_cases hkey : fid fr.franchise_id = g
        · simp [processFranchise, hid, insPhase, ensurePlayerFold_picks, delPhase,
            ensureTeam_picks, setAt, hkey]
        · have hkey' : ¬ g = fid fr.franchise_id := fun hgg => hkey hgg.symm
          simp [processFranchise, hid, insPhase, ensurePlayerFold_picks, delPhase,
            ensureTeam_picks, setAt, hkey, hkey']

/-- C5: running `sync_league_assets` twice with identical input leaves
exactly the roster and pick row sets of the first run for every franchise —
the sync replaces rather than accumulates. -/
theorem C5_sync_idempotent (s : SyncState) (frs : List FranchiseAssets) :
    (sync_league_assets (sync_league_assets s frs) frs).rosters
      = (sync_league_assets s frs).rosters ∧
    (sync_league_assets (sync_league_assets s frs) frs).picks
      = (sync_league_assets s frs).picks := by
  constructor
  · funext g
    rw [sync_rosters_char frs (sync_league_assets s frs) g, sync_rosters_char frs s g]
    cases h : lastRosterWrite frs g with
    | none => simp [h, sync_rosters_char frs s g]
    | some v => simp [h]
  · funext g
    rw [sync_picks_char frs (sync_league_assets s frs) g, sync_picks_char frs s g]
    cases h : lastPickWrite frs g with
    | none => simp [h, sync_picks_char frs s g]
    | some v => simp [h]

/-- Helper: keys after a dict insert. -/
theorem mem_keys_dictInsert {α : Type} (m : List (String × α)) (k : String)
    (v : α) (g : String) :
    g ∈ (dictInsert m k v).map Prod.fst ↔ g = k ∨ g ∈ m.map Prod.fst := by
  induction m with
  | nil => simp [dictInsert]
  | cons kv rest ih =>
    unfold dictInsert
    by_cases hk : kv.1 = k
    · simp [hk]
      try tauto
    · simp [hk, ih]
      try tauto

/-- Helper: lookup after a dict insert. -/
theorem lookupA_dictInsert {α : Type} (m : List (String × α)) (k : String)
    (v : α) (g : String) :
    lookupA (dictInsert m k v) g = if k = g then some v else lookupA m g := by
  induction m with
  | nil => simp [dictInsert, lookupA]
  | cons kv rest ih =>
    unfold dictInsert
    by_cases hk : kv.1 = k
    · rw [if_pos hk]
      by_cases hg : k = g
      · simp [lookupA, hg]
      · have hkg : ¬ kv.1 = g := by rw [hk]; exact hg
        simp [lookupA, hg, hkg]
    · rw [if_neg hk]
      by_cases hg : kv.1 = g
      · have hkg : ¬ k = g := fun hc => hk (by rw [hg, hc])
        simp [lookupA, hg, hkg]
      · simp [lookupA, hg, ih]

/-- Helper: a key is present exactly when lookup succeeds. -/
theorem lookupA_isSome_iff {α : Type} (m : List (String × α)) (g : String) :
    (lookupA m g).isSome ↔ g ∈ m.map Prod.fst := by
  induction m with
  | nil => simp [lookupA]
  | cons kv rest ih =>
    unfold lookupA
    by_cases hg : kv.1 = g
    · simp [hg]
    · simp [hg, ih]
      exact fun hc => absurd hc.symm hg

/-- Helper: keys produced by the rosters pass are exactly the feed's
franchise ids (plus whatever the accumulator already held). -/
theorem rosterFold_keys (nodes : List XNode) :
    ∀ (m : List (String × FranchiseAssets)) (g : String),
      g ∈ (nodes.foldl rosterStep m).map Prod.fst ↔
        g ∈ m.map Prod.fst ∨ g ∈ nodes.filterMap nodeFid? := by
  induction nodes with
  | nil => simp
  | cons fr rest ih =>
    intro m g
    rw [List.foldl_cons, ih]
    by_cases hf : fid (getAttr fr "id") = ""
    · have hn : nodeFid? fr = none := by simp [nodeFid?, hf]
      rw [List.filterMap_cons, hn]
      simp [rosterStep, hf]
    · have hn : nodeFid? fr = some (fid (getAttr fr "id")) := by simp [nodeFid?, hf]
      have hs : rosterStep m fr =
          dictInsert m (fid (getAttr fr "id"))
            ⟨fid (getAttr fr "id"), rosterPlayerIds fr, []⟩ := by
        simp [rosterStep, hf]
      rw [List.filterMap_cons, hn, hs, mem_keys_dictInsert]
      simp only [List.mem_cons]
      tauto

/-- Helper: every value held after the rosters pass carries its own key as
franchise id and an empty pick list. -/
theorem rosterFold_inv (nodes : List XNode) :
    ∀ (m : List (String × FranchiseAssets)),
      (∀ g fa, lookupA m g = some fa → fa.franchise_id = g ∧ fa.future_picks = []) →
      ∀ g fa, lookupA (nodes.foldl rosterStep m) g = some fa →
        fa.franchise_id = g ∧ fa.future_picks = [] := by
  induction nodes with
  | nil => exact fun m hm => hm
  | cons fr rest ih =>
    intro m hm
    rw [List.foldl_cons]
    apply ih
    intro g fa hfa
    unfold rosterStep at hfa
    by_cases hf : fid (getAttr fr "id") = ""
    · rw [if_pos hf] at hfa
      exact hm g fa hfa
    · rw [if_neg hf, lookupA_dictInsert] at hfa
      by_cases hg : fid (getAttr fr "id") = g
      · rw [if_pos hg] at hfa
        cases hfa
        exact ⟨hg, rfl⟩
      · rw [if_neg hg] at hfa
        exact hm g fa hfa

/-- Helper: keys after the picks pass are the union of the accumulator's
keys and the picks feed's keys. -/
theorem pickFold_keys (pb : List (String × List (Int × Int × String))) :
    ∀ (m : List (String × FranchiseAssets)) (g : String),
      g ∈ (pb.foldl pickStep m).map Prod.fst ↔
        g ∈ m.map Prod.fst ∨ g ∈ pb.map Prod.fst := by
  induction pb with
  | nil => simp
  | cons kv rest ih =>
    intro m g
    rw [List.foldl_cons, ih]
    have hstep : g ∈ (pickStep m kv).map Prod.fst ↔ g = kv.1 ∨ g ∈ m.map Prod.fst := by
      unfold pickStep
      cases lookupA m kv.1 with
      | some fa => exact mem_keys_dictInsert m kv.1 _ g
      | none => exact mem_keys_dictInsert m kv.1 _ g
    rw [hstep]
    simp only [List.map_cons, List.mem_cons]
    tauto

/-- Helper: the picks pass preserves "each value carries its own key". -/
theorem pickFold_fid_inv (pb : List (String × List (Int × Int × String))) :
    ∀ (m : List (String × FranchiseAssets)),
      (∀ g fa, lookupA m g = some fa → fa.franchise_id = g) →
      ∀ g fa, lookupA (pb.foldl pickStep m) g = some fa → fa.franchise_id = g := by
  induction pb with
  | nil => exact fun m hm => hm
  | cons kv rest ih =>
    intro m hm
    rw [List.foldl_cons]
    apply ih
    intro g fa hfa
    unfold pickStep at hfa
    cases hl : lookupA m kv.1 with
    | some fa0 =>
      rw [hl, lookupA_dictInsert] at hfa
      by_cases hg : kv.1 = g
      · rw [if_pos hg] at hfa
        cases hfa
        exact hg ▸ hm kv.1 fa0 hl
      · rw [if_neg hg] at hfa
        exact hm g fa hfa
    | none =>
      rw [hl, lookupA_dictInsert] at hfa
      by_cases hg : kv.1 = g
      · rw [if_pos hg] at hfa
        cases hfa
        exact hg
      · rw [if_neg hg] at hfa
        exact hm g fa hfa

/-- Helper: keys absent from the picks feed keep their value across the
picks pass. -/
theorem pickFold_not_mem (pb : List (String × List (Int × Int × String))) :
    ∀ (m : List (String × FranchiseAssets)) (g : String),
      g ∉ pb.map Prod.fst →
      lookupA (pb.foldl pickStep m) g = lookupA m g := by
  induction pb with
  | nil => intro m g _; rfl
  | cons kv rest ih =>
    intro m g hg
    have hne : ¬ kv.1 = g := by
      intro hc
      exact hg (by simp [hc])
    have hrest : g ∉ rest.map Prod.fst := by
      intro hc
      exact hg (by simp [hc])
    rw [List.foldl_cons, ih _ g hrest]
    unfold pickStep
    cases lookupA m kv.1 with
    | some fa0 => rw [lookupA_dictInsert, if_neg hne]
    | none => rw [lookupA_dictInsert, if_neg hne]

/-- Helper: a key the rosters pass never saw ends the picks pass either
still absent or holding an empty player list under its own id. -/
theorem pickFold_player_empty (pb : List (String × List (Int × Int × String))) :
    ∀ (m : List (String × FranchiseAssets)) (g : String),
      (lookupA m g = none ∨
        ∃ fa, lookupA m g = some fa ∧ fa.player_ids = [] ∧ fa.franchise_id = g) →
      (lookupA (pb.foldl pickStep m) g = none ∨
        ∃ fa, lookupA (pb.foldl pickStep m) g = some fa ∧
          fa.player_ids = [] ∧ fa.franchise_id = g) := by
  induction pb with
  | nil => exact fun m g hm => hm
  | cons kv rest ih =>
    intro m g hm
    rw [List.foldl_cons]
    apply ih
    by_cases hg : kv.1 = g
    · unfold pickStep
      cases hl : lookupA m kv.1 with
      | none =>
        right
        refine ⟨⟨kv.1, [], normalizePicks kv.2⟩, ?_, rfl, hg⟩
        rw [lookupA_dictInsert, if_pos hg]
      | some fa0 =>
        right
        rcases hm with hnone | ⟨fa, hfa, hp, hfid⟩
        · rw [hg] at hl
          rw [hnone] at hl
          exact absurd hl (by simp)
        · rw [hg, hfa] at hl
          injection hl with he
          refine ⟨{ fa0 with future_picks := normalizePicks kv.2 }, ?_, ?_, ?_⟩
          · rw [lookupA_dictInsert, if_pos hg]
          · rw [he] at hp
            exact hp
          · rw [he] at hfid
            exact hfid
    · unfold pickStep
      cases hl : lookupA m kv.1 with
      | none =>
        rw [lookupA_dictInsert, if_neg hg]
        exact hm
      | some fa0 =>
        rw [lookupA_dictInsert, if_neg hg]
        exact hm

/-- Helper: sorting keeps membership. -/
theorem mem_sortStrings (a : String) (l : List String) :
    a ∈ sortStrings l ↔ a ∈ l :=
  (List.perm_insertionSort _ l).mem_iff

/-- Helper: every value of the merged fallback dict carries its own key. -/
theorem fallbackDict_fid (rX : XNode) (pX : Option XNode) :
    ∀ g fa,
      lookupA (attachPicks (rosterPass rX) (parse_future_picks_fallback pX)) g
        = some fa → fa.franchise_id = g := by
  apply pickFold_fid_inv
  intro g fa h
  exact (rosterFold_inv (findallDesc rX "franchise") []
    (by intro g fa h; simp [lookupA] at h) g fa h).1

/-- Helper: the merged fallback dict's keys are the union of the two feeds'
franchise ids. -/
theorem fallbackDict_keys (rX : XNode) (pX : Option XNode) (g : String) :
    g ∈ (attachPicks (rosterPass rX) (parse_future_picks_fallback pX)).map Prod.fst
      ↔ g ∈ rosterFeedIds rX ∨ g ∈ pickFeedIds pX := by
  rw [show attachPicks (rosterPass rX) (parse_future_picks_fallback pX)
      = (parse_future_picks_fallback pX).foldl pickStep (rosterPass rX) from rfl]
  rw [pickFold_keys]
  constructor
  · rintro (hr | hp)
    · rcases (rosterFold_keys (findallDesc rX "franchise") [] g).mp hr with h0 | h1
      · exact absurd h0 (by simp)
      · exact Or.inl h1
    · exact Or.inr hp
  · rintro (hr | hp)
    · exact Or.inl ((rosterFold_keys (findallDesc rX "franchise") [] g).mpr (Or.inr hr))
    · exact Or.inr hp

/-- Helper: the characterization of `parse_rosters_fallback` the claim
needs — merged by franchise id over the union of the two feeds, with an
empty list for a missing half. -/
theorem parse_rosters_fallback_char (rX : XNode) (pX : Option XNode) :
    (∀ g, (∃ fa ∈ parse_rosters_fallback rX pX, fa.franchise_id = g) ↔
      (g ∈ rosterFeedIds rX ∨ g ∈ pickFeedIds pX)) ∧
    (∀ g, g ∈ pickFeedIds pX → g ∉ rosterFeedIds rX →
      ∃ fa ∈ parse_rosters_fallback rX pX, fa.franchise_id = g ∧ fa.player_ids = []) ∧
    (∀ g, g ∈ rosterFeedIds rX → g ∉ pickFeedIds pX →
      ∃ fa ∈ parse_rosters_fallback rX pX, fa.franchise_id = g ∧ fa.future_picks = []) := by
  have hmem : ∀ fa : FranchiseAssets, fa ∈ parse_rosters_fallback rX pX ↔
      ∃ k, k ∈ sortStrings ((attachPicks (rosterPass rX)
        (parse_future_picks_fallback pX)).map (fun kv => kv.1)) ∧
        lookupA (attachPicks (rosterPass rX) (parse_future_picks_fallback pX)) k
          = some fa := by
    intro fa
    simp only [parse_rosters_fallback, List.mem_filterMap]
  have hkeys := fallbackDict_keys rX pX
  have hfid := fallbackDict_fid rX pX
  refine ⟨?_, ?_, ?_⟩
  · intro g
    constructor
    · rintro ⟨fa, hfa, hg⟩
      obtain ⟨k, hk, hlook⟩ := (hmem fa).mp hfa
      have : fa.franchise_id = k := hfid k fa hlook
      rw [← hg, this]
      exact (hkeys k).mp ((mem_sortStrings k _).mp hk)
    · intro hg
      have hin : g ∈ (attachPicks (rosterPass rX)
          (parse_future_picks_fallback pX)).map Prod.fst := (hkeys g).mpr hg
      obtain ⟨fa, hlook⟩ := Option.isSome_iff_exists.mp
        ((lookupA_isSome_iff _ g).mpr hin)
      refine ⟨fa, (hmem fa).mpr ⟨g, (mem_sortStrings g _).mpr hin, hlook⟩, ?_⟩
      exact hfid g fa hlook
  · intro g hp hr
    have hnone : lookupA (rosterPass rX) g = none := by
      cases hl : lookupA (rosterPass rX) g with
      | none => rfl
      | some fa0 =>
        exfalso
        apply hr
        have hmem0 : g ∈ (rosterPass rX).map Prod.fst :=
          (lookupA_isSome_iff _ g).mp (by rw [hl]; rfl)
        rcases (rosterFold_keys (findallDesc rX "franchise") [] g).mp hmem0 with h0 | h1
        · exact absurd h0 (by simp)
        · exact h1
    have hQ := pickFold_player_empty (parse_future_picks_fallback pX)
      (rosterPass rX) g (Or.inl hnone)
    have hin : g ∈ (attachPicks (rosterPass rX)
        (parse_future_picks_fallback pX)).map Prod.fst :=
      (hkeys g).mpr (Or.inr hp)
    rcases hQ with hq | ⟨fa, hlook, hpl, hfidg⟩
    · exfalso
      have := (lookupA_isSome_iff
        (attachPicks (rosterPass rX) (parse_future_picks_fallback pX)) g).mpr hin
      rw [show ((parse_future_picks_fallback pX).foldl pickStep (rosterPass rX))
          = attachPicks (rosterPass rX) (parse_future_picks_fallback pX) from rfl] at hq
      rw [hq] at this
      exact absurd this (by simp)
    · refine ⟨fa, (hmem fa).mpr ⟨g, (mem_sortStrings g _).mpr hin, ?_⟩, hfidg, hpl⟩
      exact hlook
  · intro g hr hp
    have hin0 : g ∈ (rosterPass rX).map Prod.fst :=
      (rosterFold_keys (findallDesc rX "franchise") [] g).mpr (Or.inr hr)
    obtain ⟨fa0, hl0⟩ := Option.isSome_iff_exists.mp
      ((lookupA_isSome_iff _ g).mpr hin0)
    have hinv := rosterFold_inv (findallDesc rX "franchise") []
      (by intro g fa h; simp [lookupA] at h) g fa0 hl0
    have hkeep : lookupA (attachPicks (rosterPass rX)
        (parse_future_picks_fallback pX)) g = some fa0 := by
      rw [show attachPicks (rosterPass rX) (parse_future_picks_fallback pX)
          = (parse_future_picks_fallback pX).foldl pickStep (rosterPass rX) from rfl,
        pickFold_not_mem _ _ _ hp]
      exact hl0
    have hin : g ∈ (attachPicks (rosterPass rX)
        (parse_future_picks_fallback pX)).map Prod.fst :=
      (lookupA_isSome_iff _ g).mp (by rw [hkeep]; rfl)
    exact ⟨fa0, (hmem fa0).mpr ⟨g, (mem_sortStrings g _).mpr hin, hkeep⟩,
      hinv.1, hinv.2⟩

/-- C2, counterexample: an assets response whose (nonempty) franchise list
has zero players and zero picks everywhere and no `<error>` marker does not
trigger the rosters+futureDraftPicks fallback — the worker keeps the
primary `parse_assets` result even with fallback feeds available. -/
theorem C2_counterexample :
    parse_assets exEmptyAssets = [⟨"0001", [], []⟩] ∧
    workerFallbackUsed exEmptyAssets exEmptyAssets = false ∧
    workerAssets exEmptyAssets exEmptyAssets exRostersFb (some exPicksFb)
      = parse_assets exEmptyAssets := by
  decide

/-- C2, amended: the fallback triggers exactly when the assets response
still carries the soft auth-rejection marker (`<error` together with "API
requires logged in user") after the one API-host retry — an all-empty
franchise list does not trigger it; when triggered, the result is the one
`parse_rosters_fallback` merge of the two feeds by franchise id, in which a
franchise present in only one feed still appears with an empty list for the
missing half; otherwise the primary parse is used. -/
theorem C2_fallback_amended (hostA apiA rX : XNode) (pX : Option XNode) :
    (workerFallbackUsed hostA apiA =
      (authBlocked (renderX hostA) && authBlocked (renderX apiA))) ∧
    (workerFallbackUsed hostA apiA = false →
      workerAssets hostA apiA rX pX = parse_assets (workerAssetsXml hostA apiA)) ∧
    (workerFallbackUsed hostA apiA = true →
      workerAssets hostA apiA rX pX = parse_rosters_fallback rX pX) ∧
    (∀ g, (∃ fa ∈ parse_rosters_fallback rX pX, fa.franchise_id = g) ↔
      (g ∈ rosterFeedIds rX ∨ g ∈ pickFeedIds pX)) ∧
    (∀ g, g ∈ pickFeedIds pX → g ∉ rosterFeedIds rX →
      ∃ fa ∈ parse_rosters_fallback rX pX, fa.franchise_id = g ∧ fa.player_ids = []) ∧
    (∀ g, g ∈ rosterFeedIds rX → g ∉ pickFeedIds pX →
      ∃ fa ∈ parse_rosters_fallback rX pX, fa.franchise_id = g ∧ fa.future_picks = []) := by
  obtain ⟨hchar1, hchar2, hchar3⟩ := parse_rosters_fallback_char rX pX
  refine ⟨?_, ?_, ?_, hchar1, hchar2, hchar3⟩
  · unfold workerFallbackUsed workerAssetsXml
    by_cases hb : authBlocked (renderX hostA)
    · simp [hb]
    · simp [hb]
  · intro h
    simp [workerAssets, h]
  · intro h
    simp [workerAssets, h]

/-- C2, witness: with both the preferred host and the API host rejecting
the assets export, the worker's result is exactly the fallback merge. -/
theorem C2_fallback_witness :
    workerAssets exAuthError exAuthError exRostersFb (some exPicksFb)
      = parse_rosters_fallback exRostersFb (some exPicksFb) :=
  (C2_fallback_amended exAuthError exAuthError exRostersFb (some exPicksFb)).2.2.1
    (by decide)
